import Mathlib

/-!
Shallow embedding of the Trusty Yellow Cab account-manager core logic:
the numeric-input parser (getVal), derived-totals computation on report
create and edit, the report date filter, the driver persistence adapter
with its local-storage fallback, and the admin-credential lookup.
Machine numbers are modelled as rationals, calendar dates as explicit
year/month/day triples with millisecond timestamps derived from a civil
day count.
-/

namespace TYC

/-- JavaScript-like values that can reach the numeric-input helpers:
a string (form state), a number (stored report field), null, or
undefined. -/
inductive JSVal where
  | str (s : String)
  | num (q : ℚ)
  | jsNull
  | jsUndef
deriving DecidableEq

/-- The regex replace shared by both getVal helpers: keep only digits and
the decimal point (`replace(/[^0-9.]/g, '')`). -/
def cleanNumeric (s : String) : String :=
  String.mk (s.toList.filter (fun c => c.isDigit || c == '.'))

/-- Value of a digit list read in base 10. -/
def digitsToNat (ds : List Char) : ℕ :=
  ds.foldl (fun a c => 10 * a + (c.toNat - 48)) 0

/-- Value of a fractional digit list placed after a decimal point. -/
def fracToRat (ds : List Char) : ℚ :=
  (digitsToNat ds : ℚ) / (10 : ℚ) ^ ds.length

/-- JavaScript parseFloat restricted to the strings the code feeds it
(only digits and decimal points; no sign, exponent or whitespace occurs
after cleaning): parse the longest prefix of shape digits, optionally
followed by a point and more digits; `none` models NaN, returned when
that prefix holds no digit at all. -/
def jsParseFloat (s : String) : Option ℚ :=
  let cs := s.toList
  let intDigits := cs.takeWhile Char.isDigit
  let rest := cs.dropWhile Char.isDigit
  let fracDigits :=
    match rest with
    | '.' :: r => r.takeWhile Char.isDigit
    | _ => []
  if intDigits.isEmpty && fracDigits.isEmpty then none
  else some ((digitsToNat intDigits : ℚ) + fracToRat fracDigits)

/-- Split of a character list at every decimal point, keeping empty
pieces, with the semantics of the JavaScript `split('.')` call in
getVal. -/
def splitOnDot (cs : List Char) : List (List Char) :=
  cs.foldr
    (fun c acc =>
      if c = '.' then [] :: acc
      else
        match acc with
        | h :: t => (c :: h) :: t
        | [] => [[c]])
    [[]]

/-- Numeric-input parser of ReportForm.tsx (getVal, lines 66-77): a
number passes through unchanged, a falsy value gives 0, a string is
stripped to digits and points; when more than one point remains the code
keeps `parts[0].parts[1]` (everything from the second point on is
dropped) before parsing; `Option.getD 0` models the trailing `|| 0` that
turns NaN into 0. -/
def getVal : JSVal → ℚ
  | .num q => q
  | .jsNull => 0
  | .jsUndef => 0
  | .str s =>
    if s = "" then 0
    else
      let cleaned := cleanNumeric s
      let parts := (splitOnDot cleaned.toList).map String.mk
      if 2 < parts.length then
        (jsParseFloat ((parts.getD 0 "") ++ "." ++ (parts.getD 1 ""))).getD 0
      else
        (jsParseFloat cleaned).getD 0

/-- Decimal digits of the fractional part f (with 0 ≤ f < 1) of a
number as printed by JavaScript; the fuel bounds the recursion and is
ample for every value the code produces (denominators are powers of
ten). -/
def fracDigitsString : ℕ → ℚ → String
  | 0, _ => ""
  | fuel + 1, f =>
    if f = 0 then ""
    else
      let f10 := f * 10
      toString (Int.toNat ⌊f10⌋) ++ fracDigitsString fuel (f10 - ⌊f10⌋)

/-- Number-to-string conversion `val.toString()` on a number, modelled
for the plain-decimal printing range (no exponent notation). -/
def jsNumToString (q : ℚ) : String :=
  let sign := if q < 0 then "-" else ""
  let a := |q|
  let f := a - ⌊a⌋
  if f = 0 then sign ++ toString (Int.toNat ⌊a⌋)
  else sign ++ toString (Int.toNat ⌊a⌋) ++ "." ++ fracDigitsString 1100 f

/-- Numeric-input parser of AdminDashboard.tsx (getVal, lines 116-120)
and DriverDashboard.tsx (lines 82-86): `val ? val.toString() : ''`, then
strip to digits and points, then parseFloat with `|| 0`. -/
def getValAdmin (v : JSVal) : ℚ :=
  let t :=
    match v with
    | .str s => s
    | .num q => if q = 0 then "" else jsNumToString q
    | .jsNull => ""
    | .jsUndef => ""
  (jsParseFloat (cleanNumeric t)).getD 0

/-- A calendar date as carried by the YYYY-MM-DD report date strings;
month runs 1 to 12 as in the ISO string (the code's Date.getMonth() is
this value shifted down by one, which preserves every comparison the
code makes). -/
structure CalDate where
  year : ℤ
  month : ℤ
  day : ℤ
deriving DecidableEq

/-- Civil day count for a calendar date (days since 1970-01-01, the unit
underlying JavaScript Date.getTime for dates truncated to midnight);
Hinnant's days-from-civil algorithm with floor division. -/
def daysFromCivil (y m d : ℤ) : ℤ :=
  let yAdj := if m ≤ 2 then y - 1 else y
  let era := yAdj / 400
  let yoe := yAdj - era * 400
  let mp := (m + 9) % 12
  let doy := (153 * mp + 2) / 5 + d - 1
  let doe := yoe * 365 + yoe / 4 - yoe / 100 + doy
  era * 146097 + doe - 719468

/-- Milliseconds per day, the unit of the code's timestamp arithmetic. -/
def msPerDay : ℤ := 24 * 60 * 60 * 1000

/-- Day number of a calendar date. -/
def dayIndex (d : CalDate) : ℤ := daysFromCivil d.year d.month d.day

/-- Millisecond timestamp of a date truncated to its calendar day, as
computed by `new Date(y, m, d).getTime()` (days taken uniform; daylight
saving shifts are outside the model, as the spec fixes day
granularity). -/
def rTimeOf (d : CalDate) : ℤ := msPerDay * dayIndex d

/-- Income breakdown of a report; the field `local_` mirrors the source
field `local` (a reserved word in Lean), and `mixed` is the field the
form labels "Other Income". -/
structure IncomeBreakdown where
  local_ : ℚ
  outstation : ℚ
  mixed : ℚ
deriving DecidableEq

/-- Expense breakdown of a report. -/
structure ExpenseBreakdown where
  fuel : ℚ
  maintenance : ℚ
  toll : ℚ
  other : ℚ
deriving DecidableEq

/-- A daily report record (types.ts, DailyReport); `notes` left undefined
is modelled as the empty string. -/
structure DailyReport where
  id : String
  driverId : String
  driverName : String
  date : CalDate
  kmsDriven : ℚ
  loginTime : String
  logoutTime : String
  income : IncomeBreakdown
  expenses : ExpenseBreakdown
  totalIncome : ℚ
  totalExpenses : ℚ
  driverSalary : ℚ
  netProfit : ℚ
  notes : String
  timestamp : ℤ
deriving DecidableEq

/-- A driver record as handled by the persistence adapter (types.ts,
Driver); the optional dailySalary is never read or written by the
adapter and is omitted. -/
structure Driver where
  id : String
  name : String
  vehicle : String
  pin : String
deriving DecidableEq

/-- Form state of ReportForm.tsx: every numeric field is held as a
free-text string while the user types. -/
structure ReportFormState where
  date : CalDate
  kmsDriven : String
  loginTime : String
  logoutTime : String
  incomeLocal : String
  incomeOutstation : String
  incomeMixed : String
  expensesFuel : String
  expensesMaintenance : String
  expensesToll : String
  expensesOther : String
  expensesSalary : String
  notes : String

/-- Report built on form submit (ReportForm.tsx handleSubmit, lines
80-126, using the derived totals of lines 80-89): every numeric field is
parsed with getVal, the totals are recomputed from the parsed fields,
and blank login/logout times default to 00:00. -/
def handleSubmitReport (driver : Driver) (st : ReportFormState)
    (newId : String) (now : ℤ) : DailyReport :=
  let totalIncome := getVal (.str st.incomeLocal) + getVal (.str st.incomeOutstation)
    + getVal (.str st.incomeMixed)
  let totalExpenses := getVal (.str st.expensesFuel) + getVal (.str st.expensesMaintenance)
    + getVal (.str st.expensesToll) + getVal (.str st.expensesOther)
    + getVal (.str st.expensesSalary)
  let driverSalary := getVal (.str st.expensesSalary)
  let netProfit := totalIncome - totalExpenses
  { id := newId
    driverId := driver.id
    driverName := driver.name
    date := st.date
    kmsDriven := getVal (.str st.kmsDriven)
    loginTime := if st.loginTime = "" then "00:00" else st.loginTime
    logoutTime := if st.logoutTime = "" then "00:00" else st.logoutTime
    income := ⟨getVal (.str st.incomeLocal), getVal (.str st.incomeOutstation),
      getVal (.str st.incomeMixed)⟩
    expenses := ⟨getVal (.str st.expensesFuel), getVal (.str st.expensesMaintenance),
      getVal (.str st.expensesToll), getVal (.str st.expensesOther)⟩
    totalIncome := totalIncome
    totalExpenses := totalExpenses
    driverSalary := driverSalary
    netProfit := netProfit
    notes := st.notes
    timestamp := now }

/-- Editing state in the admin and driver dashboards: a stored report
spread into component state; each numeric field becomes a string once
edited (handleEditValChange) and stays a number while untouched, so the
fields are JavaScript values. -/
structure EditingReport where
  base : DailyReport
  incomeLocal : JSVal
  incomeOutstation : JSVal
  incomeMixed : JSVal
  expensesFuel : JSVal
  expensesMaintenance : JSVal
  expensesToll : JSVal
  expensesOther : JSVal
  driverSalary : JSVal

/-- Report produced by an edit (AdminDashboard.tsx handleUpdateReport,
lines 122-158; DriverDashboard.tsx lines 88-122 is identical): every
numeric field is re-parsed with the dashboard getVal and the totals are
recomputed from the parsed values, the rest of the record is spread from
the report being edited. -/
def handleUpdateReport (e : EditingReport) : DailyReport :=
  let incLocal := getValAdmin e.incomeLocal
  let incOut := getValAdmin e.incomeOutstation
  let incMixed := getValAdmin e.incomeMixed
  let expFuel := getValAdmin e.expensesFuel
  let expMaint := getValAdmin e.expensesMaintenance
  let expToll := getValAdmin e.expensesToll
  let expOther := getValAdmin e.expensesOther
  let salary := getValAdmin e.driverSalary
  let newTotalIncome := incLocal + incOut + incMixed
  let newTotalExpenses := expFuel + expMaint + expToll + expOther + salary
  let newNetProfit := newTotalIncome - newTotalExpenses
  { e.base with
    income := ⟨incLocal, incOut, incMixed⟩
    expenses := ⟨expFuel, expMaint, expToll, expOther⟩
    driverSalary := salary
    totalIncome := newTotalIncome
    totalExpenses := newTotalExpenses
    netProfit := newNetProfit }

/-- Date-filter mode selected in the dashboards; `all` covers the 'all'
literal together with every unrecognized value (the code falls through
to `return true`). -/
inductive DateFilter where
  | today
  | week
  | month
  | year
  | custom
  | all
deriving DecidableEq

/-- Date predicate of the report filter, identical in AdminDashboard.tsx
(lines 46-76) and DriverDashboard.tsx (lines 36-66); a `none` custom
bound models a blank date string, the only falsy string. -/
def dateMatches (today : CalDate) (f : DateFilter)
    (customStart customEnd : Option CalDate) (rd : CalDate) : Bool :=
  let current := rTimeOf today
  let rTime := rTimeOf rd
  match f with
  | .today => rTime == current
  | .week => decide (current - 7 * 24 * 60 * 60 * 1000 ≤ rTime)
  | .month => rd.month == today.month && rd.year == today.year
  | .year => rd.year == today.year
  | .custom =>
    match customStart, customEnd with
    | some s, some e => decide (rTimeOf s ≤ rTime) && decide (rTime ≤ rTimeOf e)
    | _, _ => true
  | .all => true

/-- Descending-by-date comparator used by both dashboards:
`(a, b) => new Date(b.date).getTime() - new Date(a.date).getTime()`
orders a before b exactly when b's date is at most a's. -/
def dateDesc (a b : DailyReport) : Bool :=
  decide (rTimeOf b.date ≤ rTimeOf a.date)

/-- Report filter of AdminDashboard.tsx (filteredReports, lines 42-77):
a driver filter of `none` models the 'all' selection; the matching
subset is sorted by the descending-by-date comparator. -/
def filteredReports (reports : List DailyReport) (filterDriver : Option String)
    (today : CalDate) (f : DateFilter) (cs ce : Option CalDate) : List DailyReport :=
  (reports.filter (fun r =>
    (match filterDriver with
     | some fd => r.driverId == fd
     | none => true)
    && dateMatches today f cs ce r.date)).mergeSort dateDesc

/-- Report filter of DriverDashboard.tsx (myReports, lines 34-67): keeps
the logged-in driver's reports matching the date filter, sorted by the
descending-by-date comparator. -/
def myReports (driverId : String) (reports : List DailyReport)
    (today : CalDate) (f : DateFilter) (cs ce : Option CalDate) : List DailyReport :=
  (reports.filter (fun r =>
    r.driverId == driverId && dateMatches today f cs ce r.date)).mergeSort dateDesc

/-- Mock drivers seeded into an empty local-storage fallback
(storageService, MOCK_DRIVERS). -/
def MOCK_DRIVERS : List Driver :=
  [⟨"1", "Ramesh Kumar", "TN 38 BR 1234", "1234"⟩,
   ⟨"2", "Suresh Raj", "TN 38 CS 5678", "5678"⟩]

/-- State seen by the driver persistence adapter: the remote drivers
table when the remote call succeeds (`none` models a thrown or
unavailable remote) and the serialized local-storage entry (`none`
models an absent key). -/
structure DriverStore where
  remote : Option (List Driver)
  localStore : Option (List Driver)
deriving DecidableEq

/-- Driver fetch (storageService getDrivers): read the remote table, or
on failure read local storage, seeding the mock data when the entry is
absent. -/
def getDrivers (s : DriverStore) : List Driver × DriverStore :=
  match s.remote with
  | some tbl => (tbl, s)
  | none =>
    match s.localStore with
    | none => (MOCK_DRIVERS, { s with localStore := some MOCK_DRIVERS })
    | some l => (l, s)

/-- Replace-or-append used by the local fallback of saveDriver
(findIndex, then assignment at that index or push). -/
def upsertById (d : Driver) (l : List Driver) : List Driver :=
  match l.findIdx? (fun x => x.id == d.id) with
  | some i => l.set i d
  | none => l ++ [d]

/-- Modelled from the spec: the remote table-service upsert contract
(insert-or-replace keyed by identifier) honoured by the supabase
`.from('drivers').upsert` call, whose implementation is an external
collaborator not in this repository. -/
def remoteUpsert (d : Driver) (l : List Driver) : List Driver :=
  upsertById d l

/-- Driver save (storageService saveDriver): upsert into the remote
table, or on failure fetch the current collection (from local storage,
since the remote is down) and replace-or-append locally. -/
def saveDriver (d : Driver) (s : DriverStore) : DriverStore :=
  match s.remote with
  | some tbl => { s with remote := some (remoteUpsert d tbl) }
  | none =>
    let fetched := getDrivers s
    { fetched.2 with localStore := some (upsertById d fetched.1) }

/-- Outcome of a remote read: a value, or a thrown error. -/
inductive RemoteResult (α : Type) where
  | ok (v : α)
  | err
deriving DecidableEq

/-- State seen by the admin-credential lookup: the remote app_settings
row for key admin_pwd (`ok none` is a successful query returning no
row, `err` a thrown error) and the local-storage entry. -/
structure SettingsStore where
  remoteAdminPwd : RemoteResult (Option String)
  lsAdminPwd : Option String
deriving DecidableEq

/-- Admin-credential lookup (storageService getAdminPassword, lines
350-366): a thrown remote error falls back to local storage with
`stored || 'admin'` (an empty stored string is falsy); a successful
query with no row returns 'admin' directly, without consulting local
storage. -/
def getAdminPassword (s : SettingsStore) : String :=
  match s.remoteAdminPwd with
  | .ok none => "admin"
  | .ok (some v) => v
  | .err =>
    match s.lsAdminPwd with
    | some stored => if stored = "" then "admin" else stored
    | none => "admin"

/-! Helper lemmas shared by several claims. -/

/-- Stripping is idempotent: cleaning a cleaned string changes nothing. -/
theorem cleanNumeric_idem (s : String) :
    cleanNumeric (cleanNumeric s) = cleanNumeric s := by
  unfold cleanNumeric
  congr 1
  show (s.toList.filter _).filter _ = s.toList.filter _
  rw [List.filter_filter]
  congr 1
  funext c
  exact Bool.and_self _

/-- Unfolding of getVal on a string input, with the lets expanded. -/
theorem getVal_str (s : String) :
    getVal (.str s)
      = if s = "" then 0
        else if 2 < ((splitOnDot (cleanNumeric s).toList).map String.mk).length then
          (jsParseFloat ((((splitOnDot (cleanNumeric s).toList).map String.mk).getD 0 "")
            ++ "." ++ (((splitOnDot (cleanNumeric s).toList).map String.mk).getD 1 ""))).getD 0
        else (jsParseFloat (cleanNumeric s)).getD 0 := rfl

/-- Every value produced by the parseFloat model is non-negative: it is
built from digit values alone. -/
theorem jsParseFloat_nonneg {s : String} {q : ℚ} (h : jsParseFloat s = some q) :
    0 ≤ q := by
  unfold jsParseFloat at h
  dsimp only at h
  split at h
  · exact absurd h (by simp)
  · have hv := Option.some.inj h
    rw [← hv]
    unfold fracToRat
    positivity

/-- The parseFloat-with-default composition is non-negative. -/
theorem jsParseFloat_getD_nonneg (t : String) : 0 ≤ (jsParseFloat t).getD 0 := by
  cases h : jsParseFloat t with
  | none => simp
  | some q => simpa using jsParseFloat_nonneg h

/-- The form parser is non-negative on every string input. -/
theorem getVal_str_nonneg (s : String) : 0 ≤ getVal (.str s) := by
  rw [getVal_str]
  split
  · exact le_refl 0
  · split
    · exact jsParseFloat_getD_nonneg _
    · exact jsParseFloat_getD_nonneg _

/-- The replace-or-append of the local fallback keeps exactly one copy
of the saved driver when the stored identifiers are pairwise distinct. -/
theorem count_upsertById (d : Driver) (l : List Driver)
    (h : (l.map Driver.id).Nodup) : (upsertById d l).count d = 1 := by
  have hpw : l.Pairwise (fun a b => a.id ≠ b.id) := by
    have h2 := h
    unfold List.Nodup at h2
    rw [List.pairwise_map] at h2
    exact h2
  unfold upsertById
  cases hfi : l.findIdx? (fun x => x.id == d.id) with
  | none =>
    rw [List.findIdx?_eq_none_iff] at hfi
    have hd : d ∉ l := fun hmem => by simpa using hfi d hmem
    rw [List.count_append, List.count_eq_zero_of_not_mem hd, List.count_singleton_self]
  | some i =>
    rw [List.findIdx?_eq_some_iff_getElem] at hfi
    obtain ⟨hi, hpi, _⟩ := hfi
    have hid : (l[i]).id = d.id := by simpa using hpi
    have hsplit : l = l.take i ++ l[i] :: l.drop (i + 1) := by
      conv_lhs => rw [← List.take_append_drop i l]
      rw [List.getElem_cons_drop l i hi]
    have hpw2 := hpw
    rw [hsplit, List.pairwise_append] at hpw2
    obtain ⟨_, pwcons, hcross⟩ := hpw2
    have htake : d ∉ l.take i := by
      intro hmem
      exact (hcross d hmem (l[i]) (List.mem_cons_self _ _)) hid.symm
    have hdrop : d ∉ l.drop (i + 1) := by
      intro hmem
      rw [List.pairwise_cons] at pwcons
      exact (pwcons.1 d hmem) hid
    show (l.set i d).count d = 1
    rw [List.set_eq_take_cons_drop d hi, List.count_append,
      List.count_eq_zero_of_not_mem htake, List.count_cons_self,
      List.count_eq_zero_of_not_mem hdrop]

/-! Claim theorems. -/

/-- C1, counterexample: the spec's own example fails on the code — the
parser applied to "..1.2.3" returns 0, not 1.2, because the multi-point
branch parses "parts[0].parts[1]" which here is the unparseable
string ".". -/
theorem C1_counterexample :
    getVal (.str "..1.2.3") ≠ (1.2 : ℚ) ∧ getVal (.str "..1.2.3") = 0 := by
  have h : getVal (.str "..1.2.3") = 0 := rfl
  rw [h]
  norm_num

/-- C1 (amended): getVal strips every character that is not a digit or a
decimal point (parsing depends only on the kept characters), and when
several decimal points remain it drops everything from the second point
on before parsing, returning 0 for empty or unparseable input; in
particular parse("1,234.56abc") = 1234.56, parse("") = 0, and
parse("..1.2.3") = 0. -/
theorem C1_amended_getVal_strips_and_truncates :
    (∀ s : String, getVal (.str s) = getVal (.str (cleanNumeric s)))
    ∧ getVal (.str "1,234.56abc") = 1234.56
    ∧ getVal (.str "") = 0
    ∧ getVal (.str "..1.2.3") = 0 := by
  refine ⟨?_, ?_, rfl, rfl⟩
  · intro s
    rw [getVal_str s, getVal_str (cleanNumeric s), cleanNumeric_idem]
    by_cases hs : s = ""
    · subst hs; rfl
    · rw [if_neg hs]
      by_cases hc : cleanNumeric s = ""
      · rw [if_pos hc, hc]
        rfl
      · rw [if_neg hc]
  · have h : getVal (.str "1,234.56abc")
        = ((1234 : ℕ) : ℚ) + ((56 : ℕ) : ℚ) / (10 : ℚ) ^ 2 := rfl
    rw [h]
    norm_num

/-- C2: every report built by form submit and every report produced by a
dashboard edit satisfies totalIncome = local + outstation + mixed (the
third income field, labelled "Other Income"), totalExpenses = fuel +
maintenance + toll + other + driverSalary, and netProfit = totalIncome −
totalExpenses; on edit the totals are recomputed from the re-parsed
input fields, not taken from the stored report. -/
theorem C2_totals_recomputed_on_create_and_edit :
    (∀ (d : Driver) (st : ReportFormState) (newId : String) (now : ℤ),
      (handleSubmitReport d st newId now).totalIncome
          = (handleSubmitReport d st newId now).income.local_
            + (handleSubmitReport d st newId now).income.outstation
            + (handleSubmitReport d st newId now).income.mixed
      ∧ (handleSubmitReport d st newId now).totalExpenses
          = (handleSubmitReport d st newId now).expenses.fuel
            + (handleSubmitReport d st newId now).expenses.maintenance
            + (handleSubmitReport d st newId now).expenses.toll
            + (handleSubmitReport d st newId now).expenses.other
            + (handleSubmitReport d st newId now).driverSalary
      ∧ (handleSubmitReport d st newId now).netProfit
          = (handleSubmitReport d st newId now).totalIncome
            - (handleSubmitReport d st newId now).totalExpenses)
    ∧ (∀ e : EditingReport,
      (handleUpdateReport e).totalIncome
          = (handleUpdateReport e).income.local_
            + (handleUpdateReport e).income.outstation
            + (handleUpdateReport e).income.mixed
      ∧ (handleUpdateReport e).totalExpenses
          = (handleUpdateReport e).expenses.fuel
            + (handleUpdateReport e).expenses.maintenance
            + (handleUpdateReport e).expenses.toll
            + (handleUpdateReport e).expenses.other
            + (handleUpdateReport e).driverSalary
      ∧ (handleUpdateReport e).netProfit
          = (handleUpdateReport e).totalIncome - (handleUpdateReport e).totalExpenses
      ∧ (handleUpdateReport e).totalIncome
          = getValAdmin e.incomeLocal + getValAdmin e.incomeOutstation
            + getValAdmin e.incomeMixed
      ∧ (handleUpdateReport e).totalExpenses
          = getValAdmin e.expensesFuel + getValAdmin e.expensesMaintenance
            + getValAdmin e.expensesToll + getValAdmin e.expensesOther
            + getValAdmin e.driverSalary) := by
  constructor
  · intro d st newId now
    exact ⟨rfl, rfl, rfl⟩
  · intro e
    exact ⟨rfl, rfl, rfl, rfl, rfl⟩

/-- C3, counterexample: a report dated one day after today matches the
week filter, although the claim bounds the window above by today. -/
theorem C3_counterexample :
    dateMatches ⟨2024, 6, 15⟩ .week none none ⟨2024, 6, 16⟩ = true
    ∧ dayIndex ⟨2024, 6, 15⟩ < dayIndex ⟨2024, 6, 16⟩ := by decide

/-- C3 (amended): the week filter matches a report exactly when its
calendar day is no earlier than 7 days before today; there is no upper
bound, so reports dated after today also match. -/
theorem C3_amended_week_is_lower_bound_only :
    ∀ (today rd : CalDate) (cs ce : Option CalDate),
      dateMatches today .week cs ce rd = true
        ↔ dayIndex today - 7 ≤ dayIndex rd := by
  intro today rd cs ce
  have h : dateMatches today .week cs ce rd
      = decide (rTimeOf today - 7 * 24 * 60 * 60 * 1000 ≤ rTimeOf rd) := rfl
  rw [h, decide_eq_true_eq]
  simp only [rTimeOf, msPerDay]
  omega

/-- C4: with both bounds set, the custom filter matches exactly the
reports whose calendar day lies in the inclusive range between the start
and end days (so the two endpoint dates are included), and with either
bound blank it matches every report. -/
theorem C4_custom_inclusive_range_blank_matches_all :
    ∀ (today sd ed rd : CalDate) (cs : Option CalDate),
      (dateMatches today .custom (some sd) (some ed) rd = true
        ↔ dayIndex sd ≤ dayIndex rd ∧ dayIndex rd ≤ dayIndex ed)
      ∧ dateMatches today .custom none cs rd = true
      ∧ dateMatches today .custom cs none rd = true := by
  intro today sd ed rd cs
  refine ⟨?_, ?_, ?_⟩
  · have h : dateMatches today .custom (some sd) (some ed) rd
        = (decide (rTimeOf sd ≤ rTimeOf rd) && decide (rTimeOf rd ≤ rTimeOf ed)) := rfl
    rw [h]
    simp only [Bool.and_eq_true, decide_eq_true_eq, rTimeOf, msPerDay]
    omega
  · cases cs <;> rfl
  · cases cs <;> rfl

/-- Calendar date of the first day of the month after a given date's
month. -/
def firstOfNextMonth (t : CalDate) : CalDate :=
  if t.month = 12 then ⟨t.year + 1, 1, 1⟩ else ⟨t.year, t.month + 1, 1⟩

/-- C5: the month filter matches a report exactly when its date has the
same calendar month and year as today; in particular every day of the
current month (first and last included) matches, and the first day of
the next month does not. -/
theorem C5_month_same_month_and_year :
    ∀ (today rd : CalDate) (cs ce : Option CalDate),
      (dateMatches today .month cs ce rd = true
        ↔ rd.month = today.month ∧ rd.year = today.year)
      ∧ (∀ dy : ℤ, dateMatches today .month cs ce ⟨today.year, today.month, dy⟩ = true)
      ∧ dateMatches today .month cs ce (firstOfNextMonth today) = false := by
  intro today rd cs ce
  refine ⟨?_, ?_, ?_⟩
  · show ((rd.month == today.month) && (rd.year == today.year)) = true ↔ _
    simp [Bool.and_eq_true, beq_iff_eq]
  · intro dy
    show ((today.month == today.month) && (today.year == today.year)) = true
    simp
  · unfold firstOfNextMonth
    by_cases hm : today.month = 12
    · rw [if_pos hm]
      show (((1 : ℤ) == today.month) && ((today.year + 1) == today.year)) = false
      rw [Bool.eq_false_iff]
      simp only [ne_eq, Bool.and_eq_true, beq_iff_eq, not_and]
      intro _
      omega
    · rw [if_neg hm]
      show (((today.month + 1) == today.month) && ((today.year) == today.year)) = false
      rw [Bool.eq_false_iff]
      simp only [ne_eq, Bool.and_eq_true, beq_iff_eq, not_and]
      intro h1
      omega

/-- C6: when the stored driver identifiers are pairwise distinct, saving
a driver and then fetching all drivers yields a collection containing
the saved driver exactly once — an existing id is replaced in place, a
new one appended — on the remote path and on the local-storage fallback
path alike. -/
theorem C6_save_then_get_contains_exactly_once (s : DriverStore) (d : Driver)
    (h : ((getDrivers s).1.map Driver.id).Nodup) :
    ((getDrivers (saveDriver d s)).1.count d) = 1 := by
  obtain ⟨remote, localStore⟩ := s
  cases remote with
  | some tbl =>
    have h2 : (tbl.map Driver.id).Nodup := h
    simpa [getDrivers, saveDriver, remoteUpsert] using count_upsertById d tbl h2
  | none =>
    cases localStore with
    | none =>
      have h2 : (MOCK_DRIVERS.map Driver.id).Nodup := h
      simpa [getDrivers, saveDriver] using count_upsertById d MOCK_DRIVERS h2
    | some l =>
      have h2 : (l.map Driver.id).Nodup := h
      simpa [getDrivers, saveDriver] using count_upsertById d l h2

/-- C6 witness: a concrete save on the local fallback path replacing the
first mock driver yields exactly one copy. -/
theorem C6_witness :
    ((getDrivers (saveDriver ⟨"1", "New Name", "TN 00", "9999"⟩
        ⟨none, some MOCK_DRIVERS⟩)).1.count ⟨"1", "New Name", "TN 00", "9999"⟩) = 1 :=
  C6_save_then_get_contains_exactly_once ⟨none, some MOCK_DRIVERS⟩
    ⟨"1", "New Name", "TN 00", "9999"⟩ (by decide)

/-- C7: for every filter configuration, the collections returned by the
admin filter and by the driver filter are sorted in descending order of
report date (most recent first). -/
theorem C7_filter_output_sorted_descending :
    ∀ (reports : List DailyReport) (fd : Option String) (dId : String)
      (today : CalDate) (f : DateFilter) (cs ce : Option CalDate),
      List.Pairwise (fun a b => dayIndex b.date ≤ dayIndex a.date)
        (filteredReports reports fd today f cs ce)
      ∧ List.Pairwise (fun a b => dayIndex b.date ≤ dayIndex a.date)
        (myReports dId reports today f cs ce) := by
  have htrans : ∀ a b c : DailyReport,
      dateDesc a b = true → dateDesc b c = true → dateDesc a c = true := by
    intro a b c hab hbc
    simp only [dateDesc, decide_eq_true_eq] at hab hbc ⊢
    exact le_trans hbc hab
  have htotal : ∀ a b : DailyReport, (dateDesc a b || dateDesc b a) = true := by
    intro a b
    simp only [dateDesc, Bool.or_eq_true, decide_eq_true_eq]
    exact le_total _ _
  have key : ∀ l : List DailyReport,
      List.Pairwise (fun a b => dayIndex b.date ≤ dayIndex a.date)
        (l.mergeSort dateDesc) := by
    intro l
    have h := List.sorted_mergeSort htrans htotal l
    refine h.imp ?_
    intro a b hab
    simp only [dateDesc, decide_eq_true_eq, rTimeOf, msPerDay] at hab
    omega
  intro reports fd dId today f cs ce
  exact ⟨key _, key _⟩

/-- C8, counterexample: when the remote read succeeds but returns no
row, the code returns the hardcoded default even though a local
credential "secret" is stored, so the stored string is not returned. -/
theorem C8_counterexample :
    getAdminPassword ⟨.ok none, some "secret"⟩ = "admin"
    ∧ getAdminPassword ⟨.ok none, some "secret"⟩ ≠ "secret" := by decide

/-- C8 (amended): when the remote read throws, a stored non-empty local
credential is returned and the default "admin" is returned when none (or
an empty string) is stored; when the remote read succeeds but returns no
row, "admin" is returned without consulting local storage. -/
theorem C8_amended_password_fallback (s : SettingsStore) :
    (s.remoteAdminPwd = .err → s.lsAdminPwd = none → getAdminPassword s = "admin")
    ∧ (s.remoteAdminPwd = .err → s.lsAdminPwd = some "" → getAdminPassword s = "admin")
    ∧ (∀ v, s.remoteAdminPwd = .err → s.lsAdminPwd = some v → v ≠ "" →
        getAdminPassword s = v)
    ∧ (s.remoteAdminPwd = .ok none → getAdminPassword s = "admin") := by
  obtain ⟨rp, lp⟩ := s
  refine ⟨?_, ?_, ?_, ?_⟩
  · intro h1 h2
    subst h1; subst h2; rfl
  · intro h1 h2
    subst h1; subst h2; rfl
  · intro v h1 h2 hv
    subst h1; subst h2
    show (if v = "" then "admin" else v) = v
    rw [if_neg hv]
  · intro h1
    subst h1; rfl

/-- C8 witness: with a thrown remote read and a stored non-empty local
credential, the stored string is returned. -/
theorem C8_witness :
    getAdminPassword ⟨.err, some "pwd123"⟩ = "pwd123" :=
  (C8_amended_password_fallback ⟨.err, some "pwd123"⟩).2.2.1 "pwd123" rfl rfl (by decide)

/-- C9, counterexample: the form parser is not non-negative on every
input — a negative number input passes through unchanged. -/
theorem C9_counterexample :
    getVal (.num (-5)) = -5 ∧ getVal (.num (-5)) < 0 := by
  have h : getVal (.num (-5)) = -5 := rfl
  rw [h]
  norm_num

/-- C9 (amended): on every string, null or undefined input the form
parser is total and returns a non-negative rational (number inputs are
returned unchanged and may be negative); consequently every income
field, expense field, totalIncome and totalExpenses written by report
creation — whose inputs are form strings — is non-negative. -/
theorem C9_amended_getVal_nonneg_on_strings :
    (∀ s : String, 0 ≤ getVal (.str s))
    ∧ getVal .jsNull = 0
    ∧ getVal .jsUndef = 0
    ∧ (∀ (d : Driver) (st : ReportFormState) (newId : String) (now : ℤ),
      0 ≤ (handleSubmitReport d st newId now).income.local_
      ∧ 0 ≤ (handleSubmitReport d st newId now).income.outstation
      ∧ 0 ≤ (handleSubmitReport d st newId now).income.mixed
      ∧ 0 ≤ (handleSubmitReport d st newId now).expenses.fuel
      ∧ 0 ≤ (handleSubmitReport d st newId now).expenses.maintenance
      ∧ 0 ≤ (handleSubmitReport d st newId now).expenses.toll
      ∧ 0 ≤ (handleSubmitReport d st newId now).expenses.other
      ∧ 0 ≤ (handleSubmitReport d st newId now).driverSalary
      ∧ 0 ≤ (handleSubmitReport d st newId now).totalIncome
      ∧ 0 ≤ (handleSubmitReport d st newId now).totalExpenses) := by
  refine ⟨getVal_str_nonneg, rfl, rfl, ?_⟩
  intro d st newId now
  refine ⟨getVal_str_nonneg _, getVal_str_nonneg _, getVal_str_nonneg _,
    getVal_str_nonneg _, getVal_str_nonneg _, getVal_str_nonneg _,
    getVal_str_nonneg _, getVal_str_nonneg _, ?_, ?_⟩
  · exact add_nonneg (add_nonneg (getVal_str_nonneg _) (getVal_str_nonneg _))
      (getVal_str_nonneg _)
  · exact add_nonneg (add_nonneg (add_nonneg (add_nonneg (getVal_str_nonneg _)
      (getVal_str_nonneg _)) (getVal_str_nonneg _)) (getVal_str_nonneg _))
      (getVal_str_nonneg _)

/-- C10: every report in the driver dashboard's filtered collection
belongs to the logged-in driver, for every date-filter mode. -/
theorem C10_myReports_only_own_reports
    (dId : String) (reports : List DailyReport) (today : CalDate)
    (f : DateFilter) (cs ce : Option CalDate) (r : DailyReport)
    (hr : r ∈ myReports dId reports today f cs ce) :
    r.driverId = dId := by
  unfold myReports at hr
  rw [List.mem_mergeSort] at hr
  have hp := (List.mem_filter.mp hr).2
  simp only [Bool.and_eq_true, beq_iff_eq] at hp
  exact hp.1

/-- C10 witness: a concrete report owned by driver "d1" appears in that
driver's filtered collection and indeed carries driverId "d1". -/
theorem C10_witness :
    (⟨"r1", "d1", "N", ⟨2024, 6, 15⟩, 0, "", "", ⟨0, 0, 0⟩, ⟨0, 0, 0, 0⟩,
        0, 0, 0, 0, "", 0⟩ : DailyReport).driverId = "d1" :=
  C10_myReports_only_own_reports "d1"
    [⟨"r1", "d1", "N", ⟨2024, 6, 15⟩, 0, "", "", ⟨0, 0, 0⟩, ⟨0, 0, 0, 0⟩,
        0, 0, 0, 0, "", 0⟩]
    ⟨2024, 6, 15⟩ .all none none _
    (by simp [myReports, dateMatches, List.mergeSort])

end TYC
